import Mathlib

/-!
Shallow embedding of the tourism-dashboard core (state store, key
normalization, derived indexes, chart update functions) from the
JavaScript source, together with proofs of the specification claims.

Strings are modelled as `List Char` (JavaScript strings are sequences of
UTF-16 code points; the inputs of interest are short names).  Machine
numbers are modelled as `Int` (all numeric fields of the data rows are
integral counts).  Nullable values are `Option`.
-/

/-! ## JavaScript character primitives -/

/-- The character class matched by JavaScript regex `\s` and removed by
`String.prototype.trim` (the code points actually used by the data are
plain spaces, tabs, newlines and the BOM). -/
def isJsSpace (c : Char) : Bool :=
  (0x09 ≤ c.toNat && c.toNat ≤ 0x0D) || c.toNat == 0x20 || c.toNat == 0xA0 ||
  c.toNat == 0x1680 || (0x2000 ≤ c.toNat && c.toNat ≤ 0x200A) || c.toNat == 0x2028 ||
  c.toNat == 0x2029 || c.toNat == 0x202F || c.toNat == 0x205F || c.toNat == 0x3000 ||
  c.toNat == 0xFEFF

/-- Lower-casing table used by `String.prototype.toLowerCase` restricted to the
alphabet occurring in the data: ASCII letters plus the Croatian letters
Č, Ć, Đ, Š, Ž. -/
def lowerTable : List (Char × Char) :=
  [('A', 'a'), ('B', 'b'), ('C', 'c'), ('D', 'd'), ('E', 'e'), ('F', 'f'), ('G', 'g'),
   ('H', 'h'), ('I', 'i'), ('J', 'j'), ('K', 'k'), ('L', 'l'), ('M', 'm'), ('N', 'n'),
   ('O', 'o'), ('P', 'p'), ('Q', 'q'), ('R', 'r'), ('S', 's'), ('T', 't'), ('U', 'u'),
   ('V', 'v'), ('W', 'w'), ('X', 'x'), ('Y', 'y'), ('Z', 'z'),
   ('Č', 'č'), ('Ć', 'ć'), ('Đ', 'đ'), ('Š', 'š'), ('Ž', 'ž')]

/-- `c.toLowerCase()` on a single character. -/
def jsToLower (c : Char) : Char := (lowerTable.lookup c).getD c

/-- `s.toLowerCase()`. -/
def jsToLowerL (l : List Char) : List Char := l.map jsToLower

/-- `s.replace(/\uFEFF/g, "")`. -/
def stripBom (l : List Char) : List Char := l.filter (fun c => c ≠ '\uFEFF')

/-- `s.trim()`. -/
def jsTrim (l : List Char) : List Char :=
  ((l.dropWhile isJsSpace).reverse.dropWhile isJsSpace).reverse

/-- `s.replace` of every hyphen by a space (global regex). -/
def hyphToSp (l : List Char) : List Char := l.map (fun c => if c = '-' then ' ' else c)

/-- `s.replace(/\s+/g, " ")`: every maximal run of whitespace becomes a single
space. -/
def collapseWs : List Char → List Char
  | [] => []
  | [c] => if isJsSpace c then [' '] else [c]
  | c1 :: c2 :: t =>
    if isJsSpace c1 then
      (if isJsSpace c2 then collapseWs (c2 :: t) else ' ' :: collapseWs (c2 :: t))
    else c1 :: collapseWs (c2 :: t)

/-- Does the string end in whitespace followed by (case-insensitive)
`"zupanija"` — i.e. does the regex `/\s+zupanija$/i` match? -/
def endsZup (l : List Char) : Bool :=
  ((l.reverse.take 8).map jsToLower == ("zupanija".data).reverse) &&
    (match (l.reverse.drop 8).head? with
     | some c => isJsSpace c
     | none => false)

/-- `s.replace(/\s+zupanija$/i, "")`: remove a trailing `"zupanija"` together
with all whitespace immediately preceding it (the regex match is anchored at
the end and `\s+` is maximal). -/
def stripZup (l : List Char) : List Char :=
  if endsZup l then ((l.reverse.drop 8).dropWhile isJsSpace).reverse else l

/-! ## Key Normalizer (`normalizeCountyKey`, part_000 lines 44–65) -/

/-- The static remap table for known inconsistent spellings. -/
def remapTable : List (List Char × List Char) :=
  [("istria".data, "istarska".data),
   ("slavonski brod posavina".data, "brodsko posavska".data),
   ("vukovar sirmium".data, "vukovarsko srijemska".data)]

/-- The part of `normalizeCountyKey` before the suffix strip:
`String(raw).toLowerCase().replace(/\uFEFF/g,"").trim()`, then hyphens to spaces, then `.replace(/\s+/g," ")`. -/
def preKey (l : List Char) : List Char :=
  collapseWs (hyphToSp (jsTrim (stripBom (jsToLowerL l))))

/-- `normalizeCountyKey` on the character list of a non-null string. -/
def normKeyL (l : List Char) : List Char :=
  let k := jsTrim (stripZup (preKey l))
  (remapTable.lookup k).getD k

/-- `normalizeCountyKey(raw)` (returns `null` for `null` input). -/
def normalizeCountyKey : Option String → Option String
  | none => none
  | some s => some (String.mk (normKeyL s.data))


/-! ## State Store (`state.js`, part_002) -/

/-- The Selection State record (`state` in state.js):
`{ year: null, month: 7, metric: "nights", countyKey: null }`. -/
structure AppState where
  year : Option Int
  month : Int
  metric : String
  countyKey : Option String
deriving DecidableEq

/-- The initial state object. -/
def initialState : AppState := { year := none, month := 7, metric := "nights", countyKey := none }

/-- A patch object passed to `setState`.  An outer `none` means the field is
absent from the patch; for nullable fields the inner `Option` is the value
itself (so `countyKey? := some none` is the patch `{ countyKey: null }`). -/
structure Patch where
  year? : Option (Option Int) := none
  month? : Option Int := none
  metric? : Option String := none
  countyKey? : Option (Option String) := none
deriving DecidableEq

/-- `Object.assign(state, patch)`: every field named in the patch takes the
patch's value, every other field keeps its prior value. -/
def mergeState (s : AppState) (p : Patch) : AppState :=
  { year := p.year?.getD s.year,
    month := p.month?.getD s.month,
    metric := p.metric?.getD s.metric,
    countyKey := p.countyKey?.getD s.countyKey }

/-- One notification pass of `for (const fn of listeners) fn(state)` over the
listener `Set`, where listeners are identified by numeric ids and the
behaviour `β i` is the list of listener ids that listener `i` unregisters
(calls the unsubscribe handle of) while it runs.  JavaScript `Set` iteration
is live: an element deleted before being visited is skipped, deleting an
already-visited or absent element has no effect.  `dead` accumulates the ids
unregistered so far during this pass. -/
def notifyAux (β : Nat → List Nat) : List Nat → List Nat → List Nat
  | [], _ => []
  | i :: rest, dead =>
    if dead.contains i then notifyAux β rest dead
    else i :: notifyAux β rest (dead ++ β i)

/-- The ids invoked by one notification pass started on listener set `L`. -/
def notify (L : List Nat) (β : Nat → List Nat) : List Nat := notifyAux β L []

/-- `setState(patch)`: merge the patch into the state, then notify every
listener with the (post-merge) state.  Returns the new state and the list of
(listener id, state argument) invocations performed. -/
def setState (s : AppState) (p : Patch) (L : List Nat) (β : Nat → List Nat) :
    AppState × List (Nat × AppState) :=
  let s2 := mergeState s p
  (s2, (notify L β).map (fun i => (i, s2)))

/-! ## JavaScript `Map` as an association list -/

/-- `Map.prototype.set`: overwrite the value in place if the key is present
(keeping its insertion position), otherwise append a new entry. -/
def jsSet {κ ν : Type} [BEq κ] : List (κ × ν) → κ → ν → List (κ × ν)
  | [], k, v => [(k, v)]
  | (k', v') :: t, k, v =>
    if k' == k then (k', v) :: t else (k', v') :: jsSet t k v

/-! ## Settlement→Region map (`townToCounty` build, part_000 lines 127–142) -/

/-- An intensity row (fields used by the core). -/
structure IntensityRow where
  spatial_level : String
  spatial_unit : Option String
  county_key : Option String
  year : Int
  nights_per_100 : Option Int
  nights_per_km2 : Option Int
  permanent_beds : Option Int
  nights : Option Int
  arrivals : Option Int
deriving DecidableEq

/-- `String(x ?? "").trim()`. -/
def jsStrTrim (x : Option String) : String := String.mk (jsTrim (x.getD "").data)

/-- One loop iteration of the `townToCounty` build: skip non-municipality
rows and rows with an empty town or county; on a collision with a different
county log a warning and keep the existing mapping; otherwise `set`.
The accumulator is (map, warning log). -/
def tcStep (acc : List (String × String) × List (String × String × String))
    (r : IntensityRow) : List (String × String) × List (String × String × String) :=
  if r.spatial_level ≠ "municipality" then acc
  else
    let town := jsStrTrim r.spatial_unit
    let county := jsStrTrim r.county_key
    if town = "" ∨ county = "" then acc
    else
      match acc.1.lookup town with
      | some c =>
        if c = county then (jsSet acc.1 town county, acc.2)
        else (acc.1, acc.2 ++ [(town, c, county)])
      | none => (jsSet acc.1 town county, acc.2)

/-- The full `for (const r of intensityLongRaw)` loop building `townToCounty`
(first component) and the collision warnings it logs (second component). -/
def buildTownToCounty (rows : List IntensityRow) :
    List (String × String) × List (String × String × String) :=
  rows.foldl tcStep ([], [])

/-- The (town, county) pair a row contributes if it is an eligible
municipality row, used to state the first-wins property. -/
def tcKeyOf (r : IntensityRow) : Option (String × String) :=
  if r.spatial_level ≠ "municipality" then none
  else
    let town := jsStrTrim r.spatial_unit
    let county := jsStrTrim r.county_key
    if town = "" ∨ county = "" then none else some (town, county)

/-- The county of the first eligible municipality row mentioning `town`. -/
def firstMatch (rows : List IntensityRow) (town : String) : Option String :=
  (rows.filterMap tcKeyOf).lookup town

/-! ## Region-Month Index (`countyMonthIndex` build, part_000 lines 144–157) -/

/-- A normalized county-totals row (output of `normalizeCountyTotals`). -/
structure CountyRow where
  county_key : Option String
  year : Int
  month : Int
  arrivals : Option Int
  nights : Option Int
deriving DecidableEq

/-- `String(m).padStart(2, "0")`. -/
def padStart2 (s : String) : String :=
  if s.length < 2 then String.mk (List.replicate (2 - s.length) '0') ++ s else s

/-- `ymKey(y, m)` = `` `${y}-${String(m).padStart(2,"0")}` ``. -/
def ymKey (y m : Int) : String := toString y ++ "-" ++ padStart2 (toString m)

/-- `d3.group` insertion step: append the row to its key's group (groups are
kept in first-encounter order). -/
def groupInsert : List (String × List CountyRow) → String → CountyRow →
    List (String × List CountyRow)
  | [], k, r => [(k, [r])]
  | (k', g) :: t, k, r =>
    if k' = k then (k', g ++ [r]) :: t else (k', g) :: groupInsert t k r

/-- `d3.group(countyTotals, d => ymKey(d.year, d.month))`. -/
def groupByYm (rows : List CountyRow) : List (String × List CountyRow) :=
  rows.foldl (fun acc r => groupInsert acc (ymKey r.year r.month) r) []

/-- The value stored in the inner map:
`{ arrivals: r.arrivals ?? 0, nights: r.nights ?? 0 }`. -/
structure CMEntry where
  arrivals : Int
  nights : Int
deriving DecidableEq

/-- `mkCMEntry r` defaults a missing arrivals/nights to 0. -/
def mkCMEntry (r : CountyRow) : CMEntry := ⟨r.arrivals.getD 0, r.nights.getD 0⟩

/-- The inner `Map(county_key -> {arrivals, nights})` of one group (a later
row with the same county key overwrites an earlier one, as `mp.set` does). -/
def innerOf (g : List CountyRow) : List (Option String × CMEntry) :=
  g.foldl (fun mp r => jsSet mp r.county_key (mkCMEntry r)) []

/-- The full `countyMonthIndex`: `(year-month string) -> Map(county_key -> entry)`. -/
def countyMonthIndex (rows : List CountyRow) :
    List (String × List (Option String × CMEntry)) :=
  (groupByYm rows).map (fun p => (p.1, innerOf p.2))

/-! ## Bars view (`bars.js` `update`) -/

/-- An origin-country row (output of `normalizeOriginLong`). -/
structure OriginRow where
  county_key : Option String
  year : Int
  month : Int
  origin_country : String
  arrivals : Option Int
  nights : Option Int
deriving DecidableEq

/-- The fixed exclusion set of aggregate/total markers in `bars.js`. -/
def totalMarkers : List (List Char) :=
  ["countries - total".data, "foreign countries - total".data, "total".data]

/-- `String(d.origin_country).toLowerCase().trim()`, the key compared against
the exclusion set. -/
def exclKey (d : OriginRow) : List Char := jsTrim (jsToLowerL d.origin_country.data)

/-- One ranked bar datum (`{ country, value, arrivals, nights }`); `value` is
the selected metric and is non-null for every displayed bar. -/
structure BarEntry where
  country : String
  value : Option Int
  arrivals : Option Int
  nights : Option Int
deriving DecidableEq

/-- The `.map` step of `bars.js`. -/
def mkBarEntry (metric : String) (d : OriginRow) : BarEntry :=
  { country := d.origin_country,
    value := if metric = "arrivals" then d.arrivals else d.nights,
    arrivals := d.arrivals, nights := d.nights }

/-- The comparator `(a, b) => b.value - a.value` as an ordering relation
(descending by value; all compared entries have a present value). -/
def valRel (a b : BarEntry) : Prop := b.value.getD 0 ≤ a.value.getD 0

instance : DecidableRel valRel := fun _ _ => inferInstanceAs (Decidable (_ ≤ _))

instance : IsTotal BarEntry valRel := ⟨fun _ _ => le_total _ _⟩

instance : IsTrans BarEntry valRel := ⟨fun _ _ _ h1 h2 => le_trans h2 h1⟩

/-- JavaScript truthiness test `!state.countyKey` (null or empty string). -/
def noCounty (ck : Option String) : Bool :=
  match ck with
  | none => true
  | some s => s = ""

/-- The eligible entries of the bars view: rows matching the current region,
year and month, not excluded as aggregate/total markers, mapped to bar data,
keeping only those whose metric value is non-null. -/
def eligibleEntries (originLong : List OriginRow) (st : AppState) : List BarEntry :=
  ((((originLong.filter (fun d =>
        d.county_key == st.countyKey && some d.year == st.year && d.month == st.month)).filter
      (fun d => !(totalMarkers.contains (exclKey d)))).map
    (mkBarEntry st.metric)).filter (fun e => e.value.isSome))

/-- The result of a bars `update`: the explicit empty state (empty indicator
shown, all bars removed), or the displayed bar list (top to bottom). -/
inductive BarsRender where
  | emptyState : BarsRender
  | bars : List BarEntry → BarsRender
deriving DecidableEq

/-- `bars.js` `update` as a pure function of its data inputs and the state. -/
def barsUpdate (originLong : List OriginRow) (st : AppState) : BarsRender :=
  if noCounty st.countyKey then .emptyState
  else
    .bars ((((eligibleEntries originLong st).insertionSort valRel).take 10).reverse)

/-! ## Scatter view (`scatter.js`) -/

/-- `scatter.js`'s local `norm`: NFD-decompose, strip combining marks,
lowercase, hyphens to spaces, collapse whitespace, trim. -/
def nfdTable : List (Char × List Char) :=
  [('č', ['c', '̌']), ('Č', ['C', '̌']),
   ('ć', ['c', '́']), ('Ć', ['C', '́']),
   ('š', ['s', '̌']), ('Š', ['S', '̌']),
   ('ž', ['z', '̌']), ('Ž', ['Z', '̌'])]

/-- NFD decomposition of one character (restricted to the alphabet of the
data; the letter đ has no combining-mark decomposition). -/
def nfdChar (c : Char) : List Char := (nfdTable.lookup c).getD [c]

/-- A Unicode combining diacritical mark (the class stripped by scatter's
`norm`). -/
def isCombMark (c : Char) : Bool := 0x300 ≤ c.toNat && c.toNat ≤ 0x36F

/-- `norm(s)` from `scatter.js` (on `String(s ?? "")`). -/
def scatterNorm (x : Option String) : List Char :=
  jsTrim (collapseWs (hyphToSp (jsToLowerL
    (((x.getD "").data.flatMap nfdChar).filter (fun c => !(isCombMark c))))))

/-- One scatter point after the `clean` mapping (`+v` of a null field is 0;
the numeric fields of the data are integral, so `Number.isFinite` holds). -/
structure ScatterPoint where
  name : Option String
  x : Int
  y : Int
  beds : Int
  nights : Int
  arrivals : Int
deriving DecidableEq

/-- The result of a scatter `update`: either the plot is cleared (axes and
points removed) or the given points are shown. -/
inductive ScatterRender where
  | cleared : ScatterRender
  | points : List ScatterPoint → ScatterRender
deriving DecidableEq

/-- The normalized town -> county lookup map built at chart construction from
the imported raw `townToCounty` table. -/
def scatterTc (tcRaw : List (String × String)) : List (List Char × List Char) :=
  tcRaw.foldl (fun mp p => jsSet mp (scatterNorm (some p.1)) (scatterNorm (some p.2))) []

/-- `scatter.js` `update` as a pure function: with no region selected the
plot is cleared; otherwise keep municipality rows of the current year whose
settlement (or, as fallback, recorded county key) maps to the selected
region under the normalized join; with no surviving rows clear the plot. -/
def scatterUpdate (tcRaw : List (String × String)) (intensityLong : List IntensityRow)
    (st : AppState) : ScatterRender :=
  if noCounty st.countyKey then .cleared
  else
    let tc := scatterTc tcRaw
    let selected := scatterNorm st.countyKey
    let rows := ((intensityLong.filter (fun d => some d.year == st.year)).filter
        (fun d => d.spatial_level == "municipality")).filter
      (fun d =>
        tc.lookup (scatterNorm d.spatial_unit) == some selected ||
        tc.lookup (scatterNorm d.county_key) == some selected)
    if rows.isEmpty then .cleared
    else
      let clean := rows.map (fun d =>
        { name := d.spatial_unit, x := d.nights_per_100.getD 0, y := d.nights_per_km2.getD 0,
          beds := d.permanent_beds.getD 0, nights := d.nights.getD 0,
          arrivals := d.arrivals.getD 0 : ScatterPoint })
      if clean.isEmpty then .cleared else .points clean

/-! ## Map view (`map.js` `update`) -/

/-- A geographic feature's joined properties. -/
structure GeoFeature where
  county_key : String
  county_label : String
deriving DecidableEq

/-- `map.js`'s local `joinKey`: lowercase, strip the qualifier suffix,
hyphens to spaces, collapse whitespace, trim. -/
def mapJoinKey (raw : String) : String :=
  String.mk (jsTrim (collapseWs (hyphToSp (stripZup (jsToLowerL raw.data)))))

/-- The data-dependent result of a map `update`: the per-feature fill values
(the choropleth value, defaulting a missing lookup to 0) and the overlay
highlight (the selected feature's join key, when a selected region matches a
feature). -/
structure MapRender where
  fills : List (String × Int)
  highlight : Option String
deriving DecidableEq

/-- `map.js` `update` as a pure function of the features, the
`valuesByCountyKey` lookup and the state. -/
def mapUpdate (features : List GeoFeature) (valuesByCountyKey : List (Option String × Int))
    (st : AppState) : MapRender :=
  { fills := features.map (fun f =>
      (mapJoinKey f.county_key,
       (valuesByCountyKey.lookup (some (mapJoinKey f.county_key))).getD 0)),
    highlight :=
      if noCounty st.countyKey then none
      else (features.find? (fun f => some (mapJoinKey f.county_key) == st.countyKey)).map
        (fun f => mapJoinKey f.county_key) }

/-! ## Line view (`line.js` `update`) -/

/-- A nationwide monthly wide row. -/
structure HrRow where
  year : Int
  month : Int
  total_arrivals : Option Int
  total_nights : Option Int
deriving DecidableEq

/-- The comparator `(a, b) => a.month - b.month` (ascending by month). -/
def byMonth (a b : Int × Option Int) : Prop := a.1 ≤ b.1

instance : DecidableRel byMonth := fun _ _ => inferInstanceAs (Decidable (_ ≤ _))

instance : IsTotal (Int × Option Int) byMonth := ⟨fun _ _ => le_total _ _⟩

instance : IsTrans (Int × Option Int) byMonth := ⟨fun _ _ _ h1 h2 => le_trans h1 h2⟩

/-- The two series computed by a line `update`: the nationwide series for the
current year and (if a region is selected) that region's series. -/
structure LineRender where
  hr : List (Int × Option Int)
  county : List (Int × Option Int)
deriving DecidableEq

/-- `line.js` `update` as a pure function of its data inputs and the state. -/
def lineUpdate (hrMonthlyWide : List HrRow) (countyMonthlyTotals : List CountyRow)
    (st : AppState) : LineRender :=
  { hr := ((hrMonthlyWide.filter (fun d => some d.year == st.year)).map
      (fun d => (d.month,
        if st.metric = "arrivals" then d.total_arrivals else d.total_nights))).insertionSort
      byMonth,
    county :=
      if noCounty st.countyKey then []
      else ((countyMonthlyTotals.filter (fun d =>
          some d.year == st.year && d.county_key == st.countyKey)).map
        (fun d => (d.month,
          if st.metric = "arrivals" then d.arrivals else d.nights))).insertionSort byMonth }

/-! ## UI controls (`initControls`, part_000 lines 163–181, and the
line-chart month click) -/

/-- The four UI controls of the spec's control surface. -/
inductive Control where
  | yearSelect : Control
  | monthRange : Control
  | metricSelect : Control
  | resetBtn : Control
deriving DecidableEq

/-- The Selection State merges issued when a control's change (or click)
event fires, as wired by `initControls`: the year selector and the metric
selector each issue one `setState` from their current widget value, the
reset button issues one `setState({ countyKey: null })`, and no listener at
all is attached to the month range input. -/
def controlEventMerges (uiYearValue : Int) (uiMetricValue : String) :
    Control → List Patch
  | .yearSelect => [{ year? := some (some uiYearValue) }]
  | .metricSelect => [{ metric? := some uiMetricValue }]
  | .resetBtn => [{ countyKey? := some none }]
  | .monthRange => []

/-- The merge issued by clicking a nationwide data point in the line chart
(`setState({ month: d.month })`), the only way the current month changes. -/
def linePointClickMerges (m : Int) : List Patch := [{ month? := some m }]

/-! ## Generic lemmas about lookups and `jsSet` -/

theorem lookup_mem_of_eq_some {α β : Type} [BEq α] [LawfulBEq α] {l : List (α × β)} {k : α} {v : β}
    (h : l.lookup k = some v) : (k, v) ∈ l := by
  induction l with
  | nil => simp [List.lookup] at h
  | cons p t ih =>
    obtain ⟨k', v'⟩ := p
    rw [List.lookup] at h
    by_cases hk : k = k'
    · subst hk
      simp at h
      subst h
      exact List.mem_cons_self _ _
    · simp [beq_eq_false_iff_ne.mpr hk] at h
      exact List.mem_cons_of_mem _ (ih h)

theorem jsSet_lookup {κ ν : Type} [BEq κ] [LawfulBEq κ] [DecidableEq κ] (mp : List (κ × ν)) (k : κ) (v : ν)
    (k' : κ) : (jsSet mp k v).lookup k' = if k' = k then some v else mp.lookup k' := by
  induction mp with
  | nil =>
    by_cases h : k' = k
    · simp [jsSet, List.lookup, h]
    · simp [jsSet, List.lookup, h, beq_eq_false_iff_ne.mpr h]
  | cons p t ih =>
    obtain ⟨k0, v0⟩ := p
    by_cases h0 : k0 = k
    · subst h0
      by_cases h : k' = k0
      · simp [jsSet, List.lookup, h]
      · simp [jsSet, List.lookup, beq_eq_false_iff_ne.mpr h, h]
    · simp only [jsSet, beq_eq_false_iff_ne.mpr h0, if_false, Bool.false_eq_true]
      by_cases h : k' = k0
      · have h0' : ¬ k' = k := by rw [h]; exact h0
        simp [List.lookup, h, if_neg h0', if_neg h0]
      · simp [List.lookup, beq_eq_false_iff_ne.mpr h, ih]

theorem jsToLower_idem (c : Char) : jsToLower (jsToLower c) = jsToLower c := by
  unfold jsToLower
  cases h : lowerTable.lookup c with
  | none => simp [h]
  | some d =>
    simp only [h, Option.getD_some]
    have hm : (c, d) ∈ lowerTable := lookup_mem_of_eq_some h
    fin_cases hm <;> decide

/-! ## Lemmas about the notification pass -/

theorem notifyAux_subset (β : Nat → List Nat) :
    ∀ (L dead : List Nat) (i : Nat), i ∈ notifyAux β L dead → i ∈ L := by
  intro L
  induction L with
  | nil => intro dead i h; simp [notifyAux] at h
  | cons j rest ih =>
    intro dead i h
    rw [notifyAux] at h
    by_cases hd : dead.contains j
    · rw [if_pos hd] at h
      exact List.mem_cons_of_mem _ (ih _ _ h)
    · rw [if_neg hd] at h
      rcases List.mem_cons.mp h with h1 | h2
      · exact h1 ▸ List.mem_cons_self _ _
      · exact List.mem_cons_of_mem _ (ih _ _ h2)

theorem notifyAux_nodup (β : Nat → List Nat) :
    ∀ (L dead : List Nat), L.Nodup → (notifyAux β L dead).Nodup := by
  intro L
  induction L with
  | nil => intro dead _; simp [notifyAux]
  | cons j rest ih =>
    intro dead hnd
    rw [notifyAux]
    rcases List.nodup_cons.mp hnd with ⟨hj, hr⟩
    by_cases hd : dead.contains j
    · rw [if_pos hd]; exact ih _ hr
    · rw [if_neg hd]
      refine List.nodup_cons.mpr ⟨fun hmem => ?_, ih _ hr⟩
      exact hj (notifyAux_subset β rest _ j hmem)

theorem notifyAux_skip (β : Nat → List Nat) :
    ∀ (L dead : List Nat) (l : Nat), l ∈ L → l ∉ notifyAux β L dead →
      l ∈ dead ∨ ∃ m ∈ notifyAux β L dead, l ∈ β m := by
  intro L
  induction L with
  | nil => intro dead l h; simp at h
  | cons j rest ih =>
    intro dead l hl hno
    rw [notifyAux] at hno ⊢
    by_cases hd : dead.contains j
    · rw [if_pos hd] at hno ⊢
      rcases List.mem_cons.mp hl with h1 | h2
      · subst h1
        exact Or.inl (List.mem_of_elem_eq_true hd)
      · exact ih _ _ h2 hno
    · rw [if_neg hd] at hno ⊢
      have hlj : l ≠ j := fun he => hno (he ▸ List.mem_cons_self _ _)
      have hlr : l ∈ rest := by
        rcases List.mem_cons.mp hl with h1 | h2
        · exact absurd h1 hlj
        · exact h2
      have hno' : l ∉ notifyAux β rest (dead ++ β j) := fun hmem =>
        hno (List.mem_cons_of_mem _ hmem)
      rcases ih _ _ hlr hno' with h1 | ⟨m, hm1, hm2⟩
      · rcases List.mem_append.mp h1 with ha | hb
        · exact Or.inl ha
        · exact Or.inr ⟨j, List.mem_cons_self _ _, hb⟩
      · exact Or.inr ⟨m, List.mem_cons_of_mem _ hm1, hm2⟩

theorem notify_trivial : ∀ (L : List Nat), notify L (fun _ => []) = L := by
  intro L
  unfold notify
  induction L with
  | nil => rfl
  | cons j rest ih => rw [notifyAux]; simp [ih]

/-! ## Claims about the State Store -/

theorem mergeState_empty (s : AppState) : mergeState s {} = s := by
  cases s; rfl

theorem mergeState_self_month (s : AppState) :
    mergeState s { month? := some s.month } = s := by
  cases s; rfl

/-- C2: for every `setState` call, every subscriber registered before the
call and not unregistered during the pass is invoked exactly once with the
post-merge state; a subscriber not in the listener set receives no
notification; and a subscriber is only skipped if some invoked listener
actually unregistered it — unregistering one listener never makes the pass
skip a different, still-registered listener. -/
theorem setState_notifies_each_subscriber_once (s : AppState) (p : Patch) (L : List Nat)
    (β : Nat → List Nat) (hL : L.Nodup) :
    (∀ q ∈ (setState s p L β).2, q.2 = mergeState s p) ∧
    ((setState s p L β).2.map Prod.fst).Nodup ∧
    (∀ i, i ∈ (setState s p L β).2.map Prod.fst → i ∈ L) ∧
    (∀ l ∈ L, l ∉ (setState s p L β).2.map Prod.fst →
      ∃ m ∈ (setState s p L β).2.map Prod.fst, l ∈ β m) := by
  have hids : (setState s p L β).2.map Prod.fst = notify L β := by
    simp only [setState, List.map_map]
    rw [show (Prod.fst ∘ fun i => (i, mergeState s p)) = id from rfl, List.map_id]
  refine ⟨?_, ?_, ?_, ?_⟩
  · intro q hq
    simp only [setState, List.mem_map] at hq
    obtain ⟨i, _, rfl⟩ := hq
    rfl
  · rw [hids]
    exact notifyAux_nodup β L [] hL
  · rw [hids]
    exact fun i hi => notifyAux_subset β L [] i hi
  · rw [hids]
    intro l hl hno
    rcases notifyAux_skip β L [] l hl hno with h | h
    · simp at h
    · exact h

theorem setState_notifies_witness :
    ([1, 2, 3] : List Nat).Nodup ∧
    ((∀ q ∈ (setState initialState { month? := some 5 } [1, 2, 3]
          (fun i => if i = 1 then [2] else [])).2,
        q.2 = mergeState initialState { month? := some 5 }) ∧
      ((setState initialState { month? := some 5 } [1, 2, 3]
          (fun i => if i = 1 then [2] else [])).2.map Prod.fst).Nodup ∧
      (∀ i, i ∈ (setState initialState { month? := some 5 } [1, 2, 3]
          (fun i => if i = 1 then [2] else [])).2.map Prod.fst → i ∈ [1, 2, 3]) ∧
      (∀ l ∈ [1, 2, 3], l ∉ (setState initialState { month? := some 5 } [1, 2, 3]
          (fun i => if i = 1 then [2] else [])).2.map Prod.fst →
        ∃ m ∈ (setState initialState { month? := some 5 } [1, 2, 3]
            (fun i => if i = 1 then [2] else [])).2.map Prod.fst,
          l ∈ (fun i => if i = 1 then [2] else []) m)) :=
  ⟨by decide,
   setState_notifies_each_subscriber_once initialState { month? := some 5 } [1, 2, 3]
     (fun i => if i = 1 then [2] else []) (by decide)⟩

/-- C3: `setState` is last-write-wins per field — each state field equals the
patch value when the field is named in the patch and the prior value
otherwise; the whole patch is applied first and every subscriber is then
invoked with the fully-merged state (never a partially-applied one); and
after merging `{year: 2022}` then `{month: 5}` both `year = 2022` and
`month = 5` hold simultaneously. -/
theorem setState_last_write_wins_per_field :
    (∀ (s : AppState) (p : Patch),
        (mergeState s p).year = p.year?.getD s.year ∧
        (mergeState s p).month = p.month?.getD s.month ∧
        (mergeState s p).metric = p.metric?.getD s.metric ∧
        (mergeState s p).countyKey = p.countyKey?.getD s.countyKey) ∧
    (∀ (s : AppState) (p : Patch) (L : List Nat) (β : Nat → List Nat),
        setState s p L β =
          (mergeState s p, (notify L β).map (fun i => (i, mergeState s p)))) ∧
    (∀ s : AppState,
        (mergeState (mergeState s { year? := some (some 2022) }) { month? := some 5 }).year
            = some 2022 ∧
        (mergeState (mergeState s { year? := some (some 2022) }) { month? := some 5 }).month
            = 5) :=
  ⟨fun _ _ => ⟨rfl, rfl, rfl, rfl⟩, fun _ _ _ _ => rfl, fun _ => ⟨rfl, rfl⟩⟩

/-- C10: `setState` performs no change detection — the set of invoked
listener ids is a function of the listener set alone, independent of the
patch; an empty patch, or a patch re-assigning a field its current value,
still notifies every registered listener exactly once (in registration
order) with the unchanged state. -/
theorem setState_no_change_detection :
    (∀ (s : AppState) (p : Patch) (L : List Nat) (β : Nat → List Nat),
        (setState s p L β).2.map Prod.fst = notify L β) ∧
    (∀ (s : AppState) (L : List Nat),
        (setState s {} L (fun _ => [])).2 = L.map (fun i => (i, s))) ∧
    (∀ (s : AppState) (L : List Nat),
        (setState s { month? := some s.month } L (fun _ => [])).2 =
          L.map (fun i => (i, s))) := by
  refine ⟨fun s p L β => ?_, fun s L => ?_, fun s L => ?_⟩
  · simp only [setState, List.map_map]
    rw [show (Prod.fst ∘ fun i => (i, mergeState s p)) = id from rfl, List.map_id]
  · simp [setState, notify_trivial, mergeState_empty]
  · simp [setState, notify_trivial, mergeState_self_month]

/-! ## Claims about the UI control wiring -/

/-- C8 counterexample: the month control's change event issues zero Selection
State merges, not exactly one — `initControls` attaches no listener to the
month range input. -/
theorem monthRange_issues_no_merge :
    (controlEventMerges 2024 "nights" Control.monthRange).length ≠ 1 := by decide

/-- C8 (amended): the year selector, the metric selector and the reset action
each issue exactly one Selection State merge per change (or click) event, and
the reset merge sets the selected region to null; the month range control has
no listener and issues none — the current month is instead changed by the
line chart's data-point click, which issues exactly one merge. -/
theorem control_event_merge_counts (y m : Int) (metricVal : String) :
    (controlEventMerges y metricVal Control.yearSelect).length = 1 ∧
    (controlEventMerges y metricVal Control.metricSelect).length = 1 ∧
    (controlEventMerges y metricVal Control.resetBtn).length = 1 ∧
    controlEventMerges y metricVal Control.resetBtn = [{ countyKey? := some none }] ∧
    controlEventMerges y metricVal Control.monthRange = [] ∧
    (linePointClickMerges m).length = 1 :=
  ⟨rfl, rfl, rfl, rfl, rfl, rfl⟩

/-! ## Claims about the Settlement→Region map -/

/-- `a ?? b` on options (left-biased choice). -/
def oor {α : Type} (a b : Option α) : Option α :=
  match a with
  | some v => some v
  | none => b

@[simp] theorem oor_none {α : Type} (b : Option α) : oor none b = b := rfl

@[simp] theorem oor_some {α : Type} (v : α) (b : Option α) : oor (some v) b = some v := rfl

theorem firstMatch_cons_none {r : IntensityRow} {t : List IntensityRow} {town : String}
    (h : tcKeyOf r = none) : firstMatch (r :: t) town = firstMatch t town := by
  simp [firstMatch, List.filterMap_cons, h]

theorem firstMatch_cons_some {r : IntensityRow} {t : List IntensityRow} {town tr cr : String}
    (h : tcKeyOf r = some (tr, cr)) :
    firstMatch (r :: t) town = if town = tr then some cr else firstMatch t town := by
  by_cases he : town = tr
  · simp [firstMatch, List.filterMap_cons, h, List.lookup, he]
  · simp [firstMatch, List.filterMap_cons, h, List.lookup, he, beq_eq_false_iff_ne.mpr he]

theorem tc_foldl_lookup (rows : List IntensityRow) :
    ∀ (acc : List (String × String) × List (String × String × String)) (town : String),
      ((rows.foldl tcStep acc).1).lookup town =
        oor ((acc.1).lookup town) (firstMatch rows town) := by
  induction rows with
  | nil =>
    intro acc town
    simp only [List.foldl_nil, firstMatch, List.filterMap_nil]
    cases (acc.1).lookup town <;> rfl
  | cons r t ih =>
    intro acc town
    rw [List.foldl_cons]
    by_cases h1 : r.spatial_level ≠ "municipality"
    · have hstep : tcStep acc r = acc := by simp [tcStep, h1]
      have hkey : tcKeyOf r = none := by simp [tcKeyOf, h1]
      rw [hstep, ih, firstMatch_cons_none hkey]
    · push_neg at h1
      by_cases h2 : jsStrTrim r.spatial_unit = "" ∨ jsStrTrim r.county_key = ""
      · have hstep : tcStep acc r = acc := by
          simp only [tcStep, h1]
          simp [h2]
        have hkey : tcKeyOf r = none := by
          simp only [tcKeyOf, h1]
          simp [h2]
        rw [hstep, ih, firstMatch_cons_none hkey]
      · have hkey : tcKeyOf r = some (jsStrTrim r.spatial_unit, jsStrTrim r.county_key) := by
          simp only [tcKeyOf, h1]
          simp [h2]
        rw [firstMatch_cons_some hkey]
        cases hlk : (acc.1).lookup (jsStrTrim r.spatial_unit) with
        | none =>
          have hstep : tcStep acc r =
              (jsSet acc.1 (jsStrTrim r.spatial_unit) (jsStrTrim r.county_key), acc.2) := by
            simp only [tcStep, h1]
            simp [h2, hlk]
          rw [hstep, ih]
          by_cases he : town = jsStrTrim r.spatial_unit
          · subst he
            simp [jsSet_lookup, hlk]
          · simp [jsSet_lookup, he]
        | some c =>
          by_cases hcc : c = jsStrTrim r.county_key
          · have hstep : tcStep acc r =
                (jsSet acc.1 (jsStrTrim r.spatial_unit) (jsStrTrim r.county_key), acc.2) := by
              simp only [tcStep, h1]
              simp [h2, hlk, hcc]
            rw [hstep, ih]
            by_cases he : town = jsStrTrim r.spatial_unit
            · subst he
              simp [jsSet_lookup, hlk, hcc]
            · simp [jsSet_lookup, he]
          · have hstep : tcStep acc r = (acc.1, acc.2 ++
                [(jsStrTrim r.spatial_unit, c, jsStrTrim r.county_key)]) := by
              simp only [tcStep, h1]
              simp [h2, hlk, hcc]
            rw [hstep, ih]
            by_cases he : town = jsStrTrim r.spatial_unit
            · subst he
              simp [hlk]
            · simp [he]

theorem tcKeyOf_eq_some {r : IntensityRow} {a b : String} :
    tcKeyOf r = some (a, b) ↔
      r.spatial_level = "municipality" ∧ jsStrTrim r.spatial_unit = a ∧
        jsStrTrim r.county_key = b ∧ a ≠ "" ∧ b ≠ "" := by
  constructor
  · intro h
    by_cases h1 : r.spatial_level ≠ "municipality"
    · simp [tcKeyOf, h1] at h
    · push_neg at h1
      by_cases h2 : jsStrTrim r.spatial_unit = "" ∨ jsStrTrim r.county_key = ""
      · simp only [tcKeyOf, h1] at h
        simp [h2] at h
      · simp only [tcKeyOf, h1] at h
        simp [h2] at h
        push_neg at h2
        exact ⟨h1, h.1, h.2, h.1 ▸ h2.1, h.2 ▸ h2.2⟩
  · rintro ⟨h1, h2, h3, h4, h5⟩
    simp only [tcKeyOf, h1]
    subst h2 h3
    simp [h4, h5]

/-- C5: the Settlement→Region map build is first-wins and deterministic — the
map built from a row list sends each settlement name to the county of the
first eligible municipality-level row mentioning it (a pure function of the
row order, so repeated builds agree), and appending a later row for the same
settlement with a different county leaves the map unchanged, adding exactly
one collision warning to the (non-fatal) warning log. -/
theorem townToCounty_first_wins (rows : List IntensityRow) (r : IntensityRow)
    (town c : String) :
    ((buildTownToCounty rows).1.lookup town = firstMatch rows town) ∧
    ((buildTownToCounty rows).1.lookup town = some c →
      tcKeyOf r = some (town, jsStrTrim r.county_key) →
      jsStrTrim r.county_key ≠ c →
      (buildTownToCounty (rows ++ [r])).1 = (buildTownToCounty rows).1 ∧
      (buildTownToCounty (rows ++ [r])).2 =
        (buildTownToCounty rows).2 ++ [(town, c, jsStrTrim r.county_key)]) := by
  constructor
  · have h := tc_foldl_lookup rows ([], []) town
    simpa [buildTownToCounty, List.lookup] using h
  · intro hlk hkey hne
    rcases tcKeyOf_eq_some.mp hkey with ⟨h1, h2, _, h4, h5⟩
    have happ : buildTownToCounty (rows ++ [r]) = tcStep (buildTownToCounty rows) r := by
      simp [buildTownToCounty, List.foldl_append]
    have hstep : tcStep (buildTownToCounty rows) r =
        ((buildTownToCounty rows).1, (buildTownToCounty rows).2 ++
          [(town, c, jsStrTrim r.county_key)]) := by
      simp only [tcStep, h1]
      rw [h2]
      have hne' : ¬ c = jsStrTrim r.county_key := fun hh => hne hh.symm
      simp [h4, h5, hlk, hne']
    rw [happ, hstep]
    exact ⟨rfl, rfl⟩

theorem townToCounty_first_wins_witness :
    (letI rows : List IntensityRow :=
        [{ spatial_level := "municipality", spatial_unit := some "Rovinj",
           county_key := some "istarska", year := 2023, nights_per_100 := none,
           nights_per_km2 := none, permanent_beds := none, nights := none,
           arrivals := none }]
     letI r2 : IntensityRow :=
        { spatial_level := "municipality", spatial_unit := some "Rovinj",
          county_key := some "primorsko goranska", year := 2023, nights_per_100 := none,
          nights_per_km2 := none, permanent_beds := none, nights := none,
          arrivals := none }
     ((buildTownToCounty rows).1.lookup "Rovinj" = firstMatch rows "Rovinj") ∧
     ((buildTownToCounty rows).1.lookup "Rovinj" = some "istarska" →
       tcKeyOf r2 = some ("Rovinj", jsStrTrim r2.county_key) →
       jsStrTrim r2.county_key ≠ "istarska" →
       (buildTownToCounty (rows ++ [r2])).1 = (buildTownToCounty rows).1 ∧
       (buildTownToCounty (rows ++ [r2])).2 =
         (buildTownToCounty rows).2 ++ [("Rovinj", "istarska", jsStrTrim r2.county_key)])) ∧
    (buildTownToCounty
        [{ spatial_level := "municipality", spatial_unit := some "Rovinj",
           county_key := some "istarska", year := 2023, nights_per_100 := none,
           nights_per_km2 := none, permanent_beds := none, nights := none,
           arrivals := none },
         { spatial_level := "municipality", spatial_unit := some "Rovinj",
           county_key := some "primorsko goranska", year := 2023, nights_per_100 := none,
           nights_per_km2 := none, permanent_beds := none, nights := none,
           arrivals := none }]).1.lookup "Rovinj" = some "istarska" :=
  ⟨townToCounty_first_wins _ _ "Rovinj" "istarska", by decide⟩

/-! ## Claims about the Region-Month Index -/

/-- The rows of a given year-month group. -/
def grp (rows : List CountyRow) (k : String) : List CountyRow :=
  rows.filter (fun r => ymKey r.year r.month == k)

theorem groupInsert_lookup (acc : List (String × List CountyRow)) (k0 : String)
    (r : CountyRow) (k : String) :
    (groupInsert acc k0 r).lookup k =
      if k = k0 then some ((acc.lookup k0).getD [] ++ [r]) else acc.lookup k := by
  induction acc with
  | nil =>
    by_cases h : k = k0
    · simp [groupInsert, List.lookup, h]
    · simp [groupInsert, List.lookup, h, beq_eq_false_iff_ne.mpr h]
  | cons p t ih =>
    obtain ⟨k1, g1⟩ := p
    by_cases h1 : k1 = k0
    · subst h1
      by_cases h : k = k1
      · simp [groupInsert, List.lookup, h]
      · simp [groupInsert, List.lookup, h, beq_eq_false_iff_ne.mpr h]
    · simp only [groupInsert, if_neg h1]
      by_cases h : k = k1
      · have h0' : ¬ k = k0 := by rw [h]; exact h1
        simp [List.lookup, h, if_neg h0', if_neg h1]
      · simp only [List.lookup, beq_eq_false_iff_ne.mpr h, ih]
        by_cases hk : k = k0
        · subst hk
          simp [List.lookup, beq_eq_false_iff_ne.mpr h,
            beq_eq_false_iff_ne.mpr (fun hh => h1 hh.symm)]
        · simp [hk, List.lookup, beq_eq_false_iff_ne.mpr h]

theorem gfold_lookup (rows : List CountyRow) :
    ∀ (acc : List (String × List CountyRow)) (k : String),
      ((rows.foldl (fun acc r => groupInsert acc (ymKey r.year r.month) r) acc).lookup k) =
        match acc.lookup k with
        | some g => some (g ++ grp rows k)
        | none => if grp rows k = [] then none else some (grp rows k) := by
  induction rows with
  | nil =>
    intro acc k
    simp only [List.foldl_nil, grp, List.filter_nil]
    cases acc.lookup k <;> simp
  | cons r t ih =>
    intro acc k
    rw [List.foldl_cons, ih]
    have hgrp : grp (r :: t) k =
        if ymKey r.year r.month == k then r :: grp t k else grp t k := by
      simp [grp, List.filter_cons]
    by_cases hk : k = ymKey r.year r.month
    · subst hk
      rw [groupInsert_lookup, if_pos rfl]
      rw [hgrp, beq_self_eq_true, if_pos rfl]
      cases hacc : acc.lookup (ymKey r.year r.month) with
      | none => simp
      | some g =>
        simp only [Option.getD_some]
        rw [List.append_assoc, List.singleton_append]
    · rw [groupInsert_lookup, if_neg hk]
      have : (ymKey r.year r.month == k) = false :=
        beq_eq_false_iff_ne.mpr (fun h => hk h.symm)
      rw [hgrp, this]
      simp

theorem groupByYm_lookup (rows : List CountyRow) (k : String) :
    (groupByYm rows).lookup k = if grp rows k = [] then none else some (grp rows k) := by
  have h := gfold_lookup rows [] k
  simpa [groupByYm, List.lookup] using h

theorem lookup_map_snd {α β γ : Type} [BEq α] [LawfulBEq α] (l : List (α × β)) (f : β → γ)
    (k : α) : ((l.map (fun p => (p.1, f p.2))).lookup k) = (l.lookup k).map f := by
  induction l with
  | nil => simp [List.lookup]
  | cons p t ih =>
    obtain ⟨k1, v1⟩ := p
    by_cases h : k = k1
    · simp [List.lookup, h]
    · simp [List.lookup, beq_eq_false_iff_ne.mpr h, ih]

theorem innerFold_mono (g : List CountyRow) :
    ∀ (acc : List (Option String × CMEntry)) (ck : Option String),
      ((acc.lookup ck)).isSome →
      (((g.foldl (fun mp r => jsSet mp r.county_key (mkCMEntry r)) acc).lookup ck)).isSome := by
  induction g with
  | nil => intro acc ck h; simpa using h
  | cons r t ih =>
    intro acc ck h
    rw [List.foldl_cons]
    apply ih
    rw [jsSet_lookup]
    by_cases hk : ck = r.county_key
    · simp [hk]
    · rw [if_neg hk]
      exact h

theorem innerFold_isSome (g : List CountyRow) :
    ∀ (acc : List (Option String × CMEntry)) (r : CountyRow), r ∈ g →
      (((g.foldl (fun mp r => jsSet mp r.county_key (mkCMEntry r)) acc).lookup
        r.county_key)).isSome := by
  induction g with
  | nil => intro acc r h; simp at h
  | cons r0 t ih =>
    intro acc r hr
    rw [List.foldl_cons]
    rcases List.mem_cons.mp hr with h1 | h2
    · subst h1
      apply innerFold_mono
      rw [jsSet_lookup, if_pos rfl]
      rfl
    · exact ih _ _ h2

theorem innerFold_source (g : List CountyRow) :
    ∀ (acc : List (Option String × CMEntry)) (ck : Option String) (e : CMEntry),
      ((g.foldl (fun mp r => jsSet mp r.county_key (mkCMEntry r)) acc).lookup ck = some e) →
      (acc.lookup ck = some e) ∨ ∃ r' ∈ g, r'.county_key = ck ∧ e = mkCMEntry r' := by
  induction g with
  | nil => intro acc ck e h; exact Or.inl (by simpa using h)
  | cons r0 t ih =>
    intro acc ck e h
    rw [List.foldl_cons] at h
    rcases ih _ _ _ h with h1 | ⟨r', hr1, hr2, hr3⟩
    · rw [jsSet_lookup] at h1
      by_cases hk : ck = r0.county_key
      · rw [if_pos hk] at h1
        exact Or.inr ⟨r0, List.mem_cons_self _ _, hk.symm, (Option.some_inj.mp h1).symm⟩
      · rw [if_neg hk] at h1
        exact Or.inl h1
    · exact Or.inr ⟨r', List.mem_cons_of_mem _ hr1, hr2, hr3⟩

/-- C6: Region-Month Index completeness and defaulting — for every row of the
monthly metric table, the index has an entry under that row's year-month key,
the row's region key is present in the entry's inner mapping, and the stored
grouped value comes from a row of the same group with missing arrivals or
nights defaulted to 0. -/
theorem countyMonthIndex_complete (rows : List CountyRow) (r : CountyRow) (hr : r ∈ rows) :
    ∃ mp e, (countyMonthIndex rows).lookup (ymKey r.year r.month) = some mp ∧
      mp.lookup r.county_key = some e ∧
      ∃ r', r' ∈ rows ∧ ymKey r'.year r'.month = ymKey r.year r.month ∧
        r'.county_key = r.county_key ∧ e = ⟨r'.arrivals.getD 0, r'.nights.getD 0⟩ := by
  set k := ymKey r.year r.month with hk
  have hrg : r ∈ grp rows k := by
    simp [grp, List.mem_filter, hr]
  have hne : grp rows k ≠ [] := fun h => by rw [h] at hrg; exact absurd hrg (List.not_mem_nil r)
  have hgb : (groupByYm rows).lookup k = some (grp rows k) := by
    rw [groupByYm_lookup, if_neg hne]
  have hidx : (countyMonthIndex rows).lookup k = some (innerOf (grp rows k)) := by
    rw [countyMonthIndex, lookup_map_snd, hgb]
    rfl
  have hsome := innerFold_isSome (grp rows k) [] r hrg
  obtain ⟨e, he⟩ := Option.isSome_iff_exists.mp hsome
  refine ⟨innerOf (grp rows k), e, hidx, he, ?_⟩
  rcases innerFold_source (grp rows k) [] r.county_key e he with h1 | ⟨r', hr1, hr2, hr3⟩
  · simp [List.lookup] at h1
  · have hmem := List.mem_filter.mp hr1
    exact ⟨r', hmem.1, by simpa using hmem.2, hr2, by rw [hr3]; rfl⟩

/-- A sample monthly metric row with a missing arrivals value. -/
def sampleCountyRow : CountyRow :=
  { county_key := some "istarska", year := 2023, month := 6, arrivals := none,
    nights := some 100 }

theorem countyMonthIndex_complete_witness :
    sampleCountyRow ∈ [sampleCountyRow] ∧
    (∃ mp e, (countyMonthIndex [sampleCountyRow]).lookup
        (ymKey sampleCountyRow.year sampleCountyRow.month) = some mp ∧
      mp.lookup sampleCountyRow.county_key = some e ∧
      ∃ r', r' ∈ [sampleCountyRow] ∧
        ymKey r'.year r'.month = ymKey sampleCountyRow.year sampleCountyRow.month ∧
        r'.county_key = sampleCountyRow.county_key ∧
        e = ⟨r'.arrivals.getD 0, r'.nights.getD 0⟩) :=
  ⟨List.mem_cons_self _ _,
   countyMonthIndex_complete [sampleCountyRow] sampleCountyRow (List.mem_cons_self _ _)⟩

/-! ## Claims about the Bars view -/

theorem mem_eligibleEntries {originLong : List OriginRow} {st : AppState} {e : BarEntry} :
    e ∈ eligibleEntries originLong st ↔
      ∃ d, d ∈ originLong ∧ d.county_key = st.countyKey ∧ some d.year = st.year ∧
        d.month = st.month ∧ exclKey d ∉ totalMarkers ∧
        (mkBarEntry st.metric d).value.isSome = true ∧ e = mkBarEntry st.metric d := by
  constructor
  · intro h
    simp only [eligibleEntries] at h
    obtain ⟨h, h5⟩ := List.mem_filter.mp h
    obtain ⟨d, hd2, rfl⟩ := List.mem_map.mp h
    obtain ⟨hd3, h4⟩ := List.mem_filter.mp hd2
    obtain ⟨hd, hcond⟩ := List.mem_filter.mp hd3
    simp only [Bool.and_eq_true, beq_iff_eq] at hcond
    obtain ⟨⟨h1, h2⟩, h3⟩ := hcond
    rw [Bool.not_eq_true'] at h4
    simp only [List.contains] at h4
    refine ⟨d, hd, h1, h2, h3, ?_, h5, rfl⟩
    intro hmem
    rw [List.elem_eq_true_of_mem hmem] at h4
    exact Bool.true_eq_false.mp h4
  · rintro ⟨d, hd, h1, h2, h3, h4, h5, rfl⟩
    simp only [eligibleEntries]
    refine List.mem_filter.mpr ⟨?_, h5⟩
    refine List.mem_map.mpr ⟨d, ?_, rfl⟩
    refine List.mem_filter.mpr ⟨List.mem_filter.mpr ⟨hd, ?_⟩, ?_⟩
    · simp [h1, h2, h3]
    · simp [List.contains, h4]

/-- C7: the bars view contract — with no region selected, `update` renders
the explicit empty state; with a region selected, the displayed bars are the
reverse of the first 10 of a descending-by-metric sort of exactly the
eligible rows (those matching the current region, year and month, not equal
to an aggregate/total marker under lowercasing, with a present metric
value), hence at most 10 bars, shown in ascending order. -/
theorem bars_update_contract (originLong : List OriginRow) (st : AppState) :
    (noCounty st.countyKey = true → barsUpdate originLong st = .emptyState) ∧
    (noCounty st.countyKey = false →
      ∃ sorted : List BarEntry,
        List.Perm sorted (eligibleEntries originLong st) ∧
        sorted.Sorted valRel ∧
        barsUpdate originLong st = .bars ((sorted.take 10).reverse) ∧
        ((sorted.take 10).reverse).Sorted (flip valRel) ∧
        ((sorted.take 10).reverse).length = min 10 (eligibleEntries originLong st).length ∧
        (∀ e ∈ (sorted.take 10).reverse, ∃ d, d ∈ originLong ∧
          d.county_key = st.countyKey ∧ some d.year = st.year ∧ d.month = st.month ∧
          exclKey d ∉ totalMarkers ∧ (mkBarEntry st.metric d).value.isSome = true ∧
          e = mkBarEntry st.metric d)) := by
  constructor
  · intro h
    simp [barsUpdate, h]
  · intro h
    refine ⟨(eligibleEntries originLong st).insertionSort valRel,
      List.perm_insertionSort valRel _, List.sorted_insertionSort valRel _, ?_, ?_, ?_, ?_⟩
    · simp [barsUpdate, h]
    · unfold List.Sorted
      rw [List.pairwise_reverse]
      exact ((List.sorted_insertionSort valRel _).sublist (List.take_sublist _ _)).imp
        (fun hab => hab)
    · rw [List.length_reverse, List.length_take,
        (List.perm_insertionSort valRel (eligibleEntries originLong st)).length_eq]
    · intro e he
      rw [List.mem_reverse] at he
      have he2 : e ∈ (eligibleEntries originLong st).insertionSort valRel :=
        (List.take_sublist _ _).mem he
      have he3 : e ∈ eligibleEntries originLong st :=
        (List.perm_insertionSort valRel _).mem_iff.mp he2
      exact mem_eligibleEntries.mp he3

/-- A sample selection state with a region selected. -/
def sampleBarsState : AppState :=
  { year := some 2023, month := 6, metric := "nights", countyKey := some "istarska" }

/-- Sample origin rows: one eligible row, one aggregate marker row, one row
with a missing metric value, one row of a different region. -/
def sampleOriginRows : List OriginRow :=
  [{ county_key := some "istarska", year := 2023, month := 6, origin_country := "Germany",
     arrivals := some 10, nights := some 50 },
   { county_key := some "istarska", year := 2023, month := 6, origin_country := "Total",
     arrivals := some 99, nights := some 999 },
   { county_key := some "istarska", year := 2023, month := 6, origin_country := "Austria",
     arrivals := some 5, nights := none },
   { county_key := some "zadarska", year := 2023, month := 6, origin_country := "Italy",
     arrivals := some 7, nights := some 70 }]

theorem bars_update_contract_witness :
    noCounty sampleBarsState.countyKey = false ∧
    (∃ sorted : List BarEntry,
      List.Perm sorted (eligibleEntries sampleOriginRows sampleBarsState) ∧
      sorted.Sorted valRel ∧
      barsUpdate sampleOriginRows sampleBarsState = .bars ((sorted.take 10).reverse) ∧
      ((sorted.take 10).reverse).Sorted (flip valRel) ∧
      ((sorted.take 10).reverse).length =
        min 10 (eligibleEntries sampleOriginRows sampleBarsState).length ∧
      (∀ e ∈ (sorted.take 10).reverse, ∃ d, d ∈ sampleOriginRows ∧
        d.county_key = sampleBarsState.countyKey ∧ some d.year = sampleBarsState.year ∧
        d.month = sampleBarsState.month ∧ exclKey d ∉ totalMarkers ∧
        (mkBarEntry sampleBarsState.metric d).value.isSome = true ∧
        e = mkBarEntry sampleBarsState.metric d)) :=
  ⟨rfl, (bars_update_contract sampleOriginRows sampleBarsState).2 rfl⟩

/-! ## Claims about stale region selections (all four views) -/

theorem scatterTcAux (tcRaw : List (String × String)) :
    ∀ (acc : List (List Char × List Char)) (k v : List Char),
      ((tcRaw.foldl (fun mp p => jsSet mp (scatterNorm (some p.1)) (scatterNorm (some p.2)))
          acc).lookup k = some v) →
      (acc.lookup k = some v) ∨ ∃ p ∈ tcRaw, v = scatterNorm (some p.2) := by
  induction tcRaw with
  | nil => intro acc k v h; exact Or.inl (by simpa using h)
  | cons p0 t ih =>
    intro acc k v h
    rw [List.foldl_cons] at h
    rcases ih _ _ _ h with h1 | ⟨p, hp1, hp2⟩
    · rw [jsSet_lookup] at h1
      by_cases hk : k = scatterNorm (some p0.1)
      · rw [if_pos hk] at h1
        exact Or.inr ⟨p0, List.mem_cons_self _ _, (Option.some_inj.mp h1).symm⟩
      · rw [if_neg hk] at h1
        exact Or.inl h1
    · exact Or.inr ⟨p, List.mem_cons_of_mem _ hp1, hp2⟩

theorem scatterTc_lookup_ne (tcRaw : List (String × String)) (ck : String)
    (hsc : ∀ p ∈ tcRaw, scatterNorm (some p.2) ≠ scatterNorm (some ck)) (k : List Char) :
    (scatterTc tcRaw).lookup k ≠ some (scatterNorm (some ck)) := by
  intro h
  rcases scatterTcAux tcRaw [] k _ h with h1 | ⟨p, hp1, hp2⟩
  · simp [List.lookup] at h1
  · exact hsc p hp1 hp2.symm

/-- C9: a Selection State whose selected region key matches nothing in the
current dataset degrades every view to its defined empty render (and each
update, being a total function, completes): the bars view shows zero bars,
the scatter view clears the plot, the map view renders no selection
highlight, and the line view's county series is empty. -/
theorem stale_region_empty_render (ck : String) (st : AppState)
    (originLong : List OriginRow) (tcRaw : List (String × String))
    (intensityLong : List IntensityRow) (features : List GeoFeature)
    (valuesByCountyKey : List (Option String × Int)) (hrMonthlyWide : List HrRow)
    (countyMonthlyTotals : List CountyRow)
    (hck : st.countyKey = some ck) (hne : ck ≠ "")
    (hbars : ∀ d ∈ originLong, d.county_key ≠ some ck)
    (hline : ∀ d ∈ countyMonthlyTotals, d.county_key ≠ some ck)
    (hmap : ∀ f ∈ features, mapJoinKey f.county_key ≠ ck)
    (hsc : ∀ p ∈ tcRaw, scatterNorm (some p.2) ≠ scatterNorm (some ck)) :
    barsUpdate originLong st = .bars [] ∧
    scatterUpdate tcRaw intensityLong st = .cleared ∧
    (mapUpdate features valuesByCountyKey st).highlight = none ∧
    (lineUpdate hrMonthlyWide countyMonthlyTotals st).county = [] := by
  have hnc : noCounty st.countyKey = false := by
    simp [noCounty, hck, hne]
  refine ⟨?_, ?_, ?_, ?_⟩
  · have hf : originLong.filter (fun d =>
        d.county_key == st.countyKey && some d.year == st.year && d.month == st.month) = [] := by
      refine List.filter_eq_nil_iff.mpr (fun d hd => ?_)
      simp only [Bool.and_eq_true, beq_iff_eq, hck, not_and]
      intro hck
      exact absurd hck.1 (hbars d hd)
    have helig : eligibleEntries originLong st = [] := by
      rw [eligibleEntries, hf]
      rfl
    simp [barsUpdate, hnc, helig]
  · have hf : ((intensityLong.filter (fun d => some d.year == st.year)).filter
        (fun d => d.spatial_level == "municipality")).filter
        (fun d =>
          (scatterTc tcRaw).lookup (scatterNorm d.spatial_unit) ==
              some (scatterNorm st.countyKey) ||
            (scatterTc tcRaw).lookup (scatterNorm d.county_key) ==
              some (scatterNorm st.countyKey)) = [] := by
      refine List.filter_eq_nil_iff.mpr (fun d _ => ?_)
      simp only [Bool.or_eq_true, beq_iff_eq, hck]
      push_neg
      exact ⟨scatterTc_lookup_ne tcRaw ck hsc _, scatterTc_lookup_ne tcRaw ck hsc _⟩
    simp only [scatterUpdate, hnc, Bool.false_eq_true, if_false]
    rw [hf]
    rfl
  · simp only [mapUpdate, hnc, Bool.false_eq_true, if_false]
    rw [List.find?_eq_none.mpr]
    · rfl
    · intro f hf
      simp only [beq_iff_eq, hck]
      intro hc
      exact hmap f hf (Option.some_inj.mp hc)
  · simp only [lineUpdate, hnc, Bool.false_eq_true, if_false]
    have hf : countyMonthlyTotals.filter (fun d =>
        some d.year == st.year && d.county_key == st.countyKey) = [] := by
      refine List.filter_eq_nil_iff.mpr (fun d hd => ?_)
      simp only [Bool.and_eq_true, beq_iff_eq, hck, not_and]
      intro _
      exact hline d hd
    rw [hf]
    rfl

/-- A selection state holding a stale region key that matches no dataset. -/
def staleState : AppState :=
  { year := some 2023, month := 6, metric := "nights", countyKey := some "nowhere" }

/-- A sample geographic feature list. -/
def sampleFeatures : List GeoFeature :=
  [{ county_key := "Istarska zupanija", county_label := "Istarska" }]

/-- A sample raw settlement -> region table (as imported by the scatter view). -/
def sampleTcRaw : List (String × String) := [("Rovinj", "istarska")]

theorem stale_region_empty_render_witness :
    (staleState.countyKey = some "nowhere" ∧ "nowhere" ≠ "" ∧
      (∀ d ∈ sampleOriginRows, d.county_key ≠ some "nowhere") ∧
      (∀ d ∈ [sampleCountyRow], d.county_key ≠ some "nowhere") ∧
      (∀ f ∈ sampleFeatures, mapJoinKey f.county_key ≠ "nowhere") ∧
      (∀ p ∈ sampleTcRaw, scatterNorm (some p.2) ≠ scatterNorm (some "nowhere"))) ∧
    (barsUpdate sampleOriginRows staleState = .bars [] ∧
      scatterUpdate sampleTcRaw [] staleState = .cleared ∧
      (mapUpdate sampleFeatures [] staleState).highlight = none ∧
      (lineUpdate [] [sampleCountyRow] staleState).county = []) :=
  ⟨⟨rfl, by decide, by decide, by decide, by decide, by decide⟩,
   stale_region_empty_render "nowhere" staleState sampleOriginRows sampleTcRaw []
     sampleFeatures [] [] [sampleCountyRow] rfl (by decide) (by decide) (by decide)
     (by decide) (by decide)⟩

/-! ## Claims about the Key Normalizer -/

/-- Characters that survive the lower/BOM/hyphen/whitespace canonical stage:
lowercase-fixed, not a BOM, not a hyphen, and any whitespace is a plain
space. -/
def GoodC (c : Char) : Prop :=
  jsToLower c = c ∧ c ≠ '\uFEFF' ∧ c ≠ '-' ∧ (isJsSpace c = true → c = ' ')

/-- No two adjacent whitespace characters. -/
def NoTwoSp (a b : Char) : Prop := ¬(isJsSpace a = true ∧ isJsSpace b = true)

theorem noTwoSp_symm {a b : Char} (h : NoTwoSp a b) : NoTwoSp b a :=
  fun hh => h ⟨hh.2, hh.1⟩

theorem map_fixed {α : Type} (f : α → α) : ∀ (l : List α), (∀ c ∈ l, f c = c) → l.map f = l := by
  intro l
  induction l with
  | nil => intro _; rfl
  | cons a t ih =>
    intro h
    rw [List.map_cons, h a (List.mem_cons_self _ _), ih (fun c hc => h c (List.mem_cons_of_mem _ hc))]

theorem dropWhile_head_false (p : Char → Bool) :
    ∀ (l : List Char) (c : Char), (l.dropWhile p).head? = some c → p c = false := by
  intro l
  induction l with
  | nil => intro c h; simp at h
  | cons a t ih =>
    intro c h
    cases hp : p a with
    | true =>
      rw [List.dropWhile_cons, if_pos hp] at h
      exact ih c h
    | false =>
      rw [List.dropWhile_cons, if_neg (by simp [hp])] at h
      simp at h
      exact h ▸ hp

theorem dropWhile_eq_self_of_head (p : Char → Bool) (l : List Char)
    (h : ∀ c, l.head? = some c → p c = false) : l.dropWhile p = l := by
  cases l with
  | nil => rfl
  | cons a t =>
    rw [List.dropWhile_cons, if_neg (by simp [h a rfl])]

theorem dropWhile_mem {p : Char → Bool} {l : List Char} {c : Char}
    (h : c ∈ l.dropWhile p) : c ∈ l := by
  rw [← List.takeWhile_append_dropWhile p l]
  exact List.mem_append_right _ h

theorem getLast?_dropWhile (p : Char → Bool) (l : List Char)
    (h : l.dropWhile p ≠ []) : (l.dropWhile p).getLast? = l.getLast? := by
  conv_rhs => rw [← List.takeWhile_append_dropWhile p l]
  rw [List.getLast?_append_of_ne_nil _ h]

theorem jsTrim_idem (l : List Char) : jsTrim (jsTrim l) = jsTrim l := by
  by_cases hvnil : (l.dropWhile isJsSpace).reverse.dropWhile isJsSpace = []
  · show jsTrim (((l.dropWhile isJsSpace).reverse.dropWhile isJsSpace).reverse) =
        ((l.dropWhile isJsSpace).reverse.dropWhile isJsSpace).reverse
    rw [hvnil]
    rfl
  · have hA : ((l.dropWhile isJsSpace).reverse.dropWhile isJsSpace).reverse.dropWhile
        isJsSpace = ((l.dropWhile isJsSpace).reverse.dropWhile isJsSpace).reverse := by
      apply dropWhile_eq_self_of_head
      intro c hc
      rw [List.head?_reverse] at hc
      rw [getLast?_dropWhile _ _ hvnil, List.getLast?_reverse] at hc
      exact dropWhile_head_false isJsSpace l c hc
    show jsTrim (((l.dropWhile isJsSpace).reverse.dropWhile isJsSpace).reverse) = _
    unfold jsTrim
    rw [hA, List.reverse_reverse, List.dropWhile_idempotent]

theorem jsTrim_mem {l : List Char} {c : Char} (h : c ∈ jsTrim l) : c ∈ l := by
  unfold jsTrim at h
  rw [List.mem_reverse] at h
  have h2 := dropWhile_mem h
  rw [List.mem_reverse] at h2
  exact dropWhile_mem h2

theorem stripZup_mem {l : List Char} {c : Char} (h : c ∈ stripZup l) : c ∈ l := by
  unfold stripZup at h
  by_cases hz : endsZup l
  · rw [if_pos hz] at h
    rw [List.mem_reverse] at h
    have h2 := dropWhile_mem h
    have h3 := List.drop_subset _ _ h2
    rw [List.mem_reverse] at h3
    exact h3
  · rw [if_neg hz] at h
    exact h

theorem stripZup_eq_of_not {l : List Char} (h : endsZup l = false) : stripZup l = l := by
  simp [stripZup, h]

theorem chain_reverse_noTwoSp {l : List Char} (h : List.Chain' NoTwoSp l) :
    List.Chain' NoTwoSp l.reverse := by
  rw [List.chain'_reverse]
  exact List.Chain'.imp (fun a b hab => noTwoSp_symm hab) h

theorem chain_dropWhile_noTwoSp (p : Char → Bool) :
    ∀ (l : List Char), List.Chain' NoTwoSp l → List.Chain' NoTwoSp (l.dropWhile p) := by
  intro l
  induction l with
  | nil => intro h; exact h
  | cons a t ih =>
    intro h
    rw [List.dropWhile_cons]
    by_cases hp : p a = true
    · rw [if_pos hp]
      exact ih h.tail
    · rw [if_neg (by simp [Bool.eq_false_iff.mpr hp])]
      exact h

theorem chain_stripZup {l : List Char} (h : List.Chain' NoTwoSp l) :
    List.Chain' NoTwoSp (stripZup l) := by
  unfold stripZup
  by_cases hz : endsZup l
  · rw [if_pos hz]
    exact chain_reverse_noTwoSp (chain_dropWhile_noTwoSp _ _ ((chain_reverse_noTwoSp h).drop 8))
  · rw [if_neg hz]
    exact h

theorem chain_jsTrim {l : List Char} (h : List.Chain' NoTwoSp l) :
    List.Chain' NoTwoSp (jsTrim l) := by
  unfold jsTrim
  exact chain_reverse_noTwoSp
    (chain_dropWhile_noTwoSp _ _ (chain_reverse_noTwoSp (chain_dropWhile_noTwoSp _ _ h)))

theorem collapseWs_cons_not_sp {a : Char} (t : List Char) (h : isJsSpace a = false) :
    collapseWs (a :: t) = a :: collapseWs t := by
  cases t with
  | nil => simp [collapseWs, h]
  | cons b t2 => simp [collapseWs, h]

theorem collapseWs_mem : ∀ (l : List Char) (c : Char), c ∈ collapseWs l →
    c = ' ' ∨ (c ∈ l ∧ isJsSpace c = false) := by
  intro l
  induction l with
  | nil => intro c h; simp [collapseWs] at h
  | cons a t ih =>
    intro c h
    cases t with
    | nil =>
      by_cases hsp : isJsSpace a = true
      · rw [show collapseWs [a] = [' '] from by simp [collapseWs, hsp]] at h
        simp at h
        exact Or.inl h
      · rw [show collapseWs [a] = [a] from by simp [collapseWs, Bool.eq_false_iff.mpr hsp]] at h
        simp at h
        subst h
        exact Or.inr ⟨List.mem_cons_self _ _, Bool.eq_false_iff.mpr hsp⟩
    | cons b t2 =>
      by_cases h1 : isJsSpace a = true
      · by_cases h2 : isJsSpace b = true
        · rw [show collapseWs (a :: b :: t2) = collapseWs (b :: t2) from by
            simp [collapseWs, h1, h2]] at h
          rcases ih c h with h' | ⟨hm, hs⟩
          · exact Or.inl h'
          · exact Or.inr ⟨List.mem_cons_of_mem _ hm, hs⟩
        · rw [show collapseWs (a :: b :: t2) = ' ' :: collapseWs (b :: t2) from by
            simp [collapseWs, h1, Bool.eq_false_iff.mpr h2]] at h
          rcases List.mem_cons.mp h with h' | h'
          · exact Or.inl h'
          · rcases ih c h' with h'' | ⟨hm, hs⟩
            · exact Or.inl h''
            · exact Or.inr ⟨List.mem_cons_of_mem _ hm, hs⟩
      · rw [collapseWs_cons_not_sp _ (Bool.eq_false_iff.mpr h1)] at h
        rcases List.mem_cons.mp h with h' | h'
        · subst h'
          exact Or.inr ⟨List.mem_cons_self _ _, Bool.eq_false_iff.mpr h1⟩
        · rcases ih c h' with h'' | ⟨hm, hs⟩
          · exact Or.inl h''
          · exact Or.inr ⟨List.mem_cons_of_mem _ hm, hs⟩

theorem collapseWs_chain : ∀ (l : List Char), List.Chain' NoTwoSp (collapseWs l) := by
  intro l
  induction l with
  | nil => simp [collapseWs]
  | cons a t ih =>
    cases t with
    | nil =>
      by_cases h : isJsSpace a = true
      · rw [show collapseWs [a] = [' '] from by simp [collapseWs, h]]
        simp
      · rw [show collapseWs [a] = [a] from by simp [collapseWs, Bool.eq_false_iff.mpr h]]
        simp
    | cons b t2 =>
      by_cases h1 : isJsSpace a = true
      · by_cases h2 : isJsSpace b = true
        · rw [show collapseWs (a :: b :: t2) = collapseWs (b :: t2) from by
            simp [collapseWs, h1, h2]]
          exact ih
        · rw [show collapseWs (a :: b :: t2) = ' ' :: collapseWs (b :: t2) from by
            simp [collapseWs, h1, Bool.eq_false_iff.mpr h2]]
          rw [collapseWs_cons_not_sp t2 (Bool.eq_false_iff.mpr h2)] at ih ⊢
          refine List.chain'_cons'.mpr ⟨?_, ih⟩
          intro x hx
          simp at hx
          subst hx
          exact fun hc => h2 hc.2
      · rw [collapseWs_cons_not_sp _ (Bool.eq_false_iff.mpr h1)]
        refine List.chain'_cons'.mpr ⟨?_, ih⟩
        intro x _
        exact fun hc => h1 hc.1

theorem collapseWs_fixed : ∀ (l : List Char), List.Chain' NoTwoSp l →
    (∀ c ∈ l, isJsSpace c = true → c = ' ') → collapseWs l = l := by
  intro l
  induction l with
  | nil => intro _ _; rfl
  | cons a t ih =>
    intro hch hsp
    cases t with
    | nil =>
      by_cases h : isJsSpace a = true
      · have ha : a = ' ' := hsp a (List.mem_cons_self _ _) h
        subst ha
        simp [collapseWs]
      · simp [collapseWs, Bool.eq_false_iff.mpr h]
    | cons b t2 =>
      by_cases h1 : isJsSpace a = true
      · have hab : NoTwoSp a b := (List.chain'_cons.mp hch).1
        have h2 : ¬ isJsSpace b = true := fun hb => hab ⟨h1, hb⟩
        have ha : a = ' ' := hsp a (List.mem_cons_self _ _) h1
        rw [show collapseWs (a :: b :: t2) = ' ' :: collapseWs (b :: t2) from by
          simp [collapseWs, h1, Bool.eq_false_iff.mpr h2]]
        rw [ih (List.chain'_cons.mp hch).2
          (fun c hc hc2 => hsp c (List.mem_cons_of_mem _ hc) hc2), ha]
      · rw [collapseWs_cons_not_sp _ (Bool.eq_false_iff.mpr h1)]
        rw [ih (List.chain'_cons.mp hch).2
          (fun c hc hc2 => hsp c (List.mem_cons_of_mem _ hc) hc2)]

theorem mem_hyphToSp {l : List Char} {c : Char} (h : c ∈ hyphToSp l) :
    c = ' ' ∨ (c ∈ l ∧ c ≠ '-') := by
  obtain ⟨a, ha, hc⟩ := List.mem_map.mp h
  by_cases hd : a = '-'
  · left
    rw [← hc, if_pos hd]
  · right
    rw [← hc, if_neg hd]
    exact ⟨ha, hd⟩

theorem mem_jsToLowerL {l : List Char} {c : Char} (h : c ∈ jsToLowerL l) :
    jsToLower c = c := by
  obtain ⟨a, _, hc⟩ := List.mem_map.mp h
  rw [← hc]
  exact jsToLower_idem a

theorem mem_stripBom {l : List Char} {c : Char} (h : c ∈ stripBom l) :
    c ∈ l ∧ c ≠ '\uFEFF' := by
  have h2 := List.mem_filter.mp h
  exact ⟨h2.1, by simpa using h2.2⟩

theorem preKey_good (l : List Char) : ∀ c ∈ preKey l, GoodC c := by
  intro c hc
  rcases collapseWs_mem _ c hc with h | ⟨hm, hs⟩
  · subst h
    exact ⟨by decide, by decide, by decide, fun _ => rfl⟩
  · rcases mem_hyphToSp hm with h | ⟨hm2, hd⟩
    · subst h
      exact ⟨by decide, by decide, by decide, fun _ => rfl⟩
    · have hm3 := jsTrim_mem hm2
      obtain ⟨hm4, hbom⟩ := mem_stripBom hm3
      have hlow := mem_jsToLowerL hm4
      exact ⟨hlow, hbom, hd, fun hsp => absurd (hs.symm.trans hsp) (by decide)⟩

theorem preKey_chain (l : List Char) : List.Chain' NoTwoSp (preKey l) :=
  collapseWs_chain _

/-- A canonical string (one satisfying the invariants of the normalizer's
output) that does not end in the qualifier-suffix pattern and misses the
remap table is a fixed point of `normKeyL`. -/
theorem normKeyL_fix (k : List Char)
    (hGood : ∀ c ∈ k, GoodC c) (hCh : List.Chain' NoTwoSp k)
    (hTrim : jsTrim k = k) (hNoZ : endsZup k = false)
    (hRm : remapTable.lookup k = none) : normKeyL k = k := by
  have h1 : jsToLowerL k = k := map_fixed _ k (fun c hc => (hGood c hc).1)
  have h2 : stripBom k = k := List.filter_eq_self.mpr (fun c hc => by
    simp [(hGood c hc).2.1])
  have h3 : hyphToSp k = k := map_fixed _ k (fun c hc => if_neg (hGood c hc).2.2.1)
  have h4 : collapseWs k = k := collapseWs_fixed k hCh (fun c hc => (hGood c hc).2.2.2)
  have hpre : preKey k = k := by
    rw [preKey, h1, h2, hTrim, h3, h4]
  simp only [normKeyL, hpre, stripZup_eq_of_not hNoZ, hTrim, hRm]
  rfl

theorem normKeyL_idem (l : List Char) (h : endsZup (normKeyL l) = false) :
    normKeyL (normKeyL l) = normKeyL l := by
  cases hv : remapTable.lookup (jsTrim (stripZup (preKey l))) with
  | some v =>
    have hnorm : normKeyL l = v := by
      simp only [normKeyL, hv]
      rfl
    have hmem : (jsTrim (stripZup (preKey l)), v) ∈ remapTable := lookup_mem_of_eq_some hv
    rw [hnorm]
    have hval : v = "istarska".data ∨ v = "brodsko posavska".data ∨
        v = "vukovarsko srijemska".data := by
      simp only [remapTable, List.mem_cons, List.not_mem_nil, or_false,
        Prod.mk.injEq] at hmem
      rcases hmem with ⟨_, h2⟩ | ⟨_, h2⟩ | ⟨_, h2⟩
      · exact Or.inl h2
      · exact Or.inr (Or.inl h2)
      · exact Or.inr (Or.inr h2)
    rcases hval with hval | hval | hval <;> rw [hval] <;> decide
  | none =>
    have hnorm : normKeyL l = jsTrim (stripZup (preKey l)) := by
      simp only [normKeyL, hv]
      rfl
    rw [hnorm]
    refine normKeyL_fix _ ?_ ?_ ?_ ?_ ?_
    · intro c hc
      exact preKey_good l c (stripZup_mem (jsTrim_mem hc))
    · exact chain_jsTrim (chain_stripZup (preKey_chain l))
    · exact jsTrim_idem _
    · rw [← hnorm]
      exact h
    · exact hv

/-- C1 counterexample: the key normalizer is not idempotent — on the input
`"a zupanija zupanija"` the first application strips one qualifier suffix,
yielding `"a zupanija"`, and a second application strips another, so
`normalizeCountyKey(normalizeCountyKey(s))` differs from
`normalizeCountyKey(s)`. -/
theorem normalizeCountyKey_not_idempotent :
    normalizeCountyKey (normalizeCountyKey (some "a zupanija zupanija")) ≠
      normalizeCountyKey (some "a zupanija zupanija") := by
  decide

set_option maxHeartbeats 2000000 in
/-- C1 (amended): the key normalizer is idempotent on every input whose
normalized key does not itself end in the whitespace-plus-qualifier suffix
pattern (the regex `\s+zupanija$`); in particular, applying it to such an
already-normalized key returns that key unchanged.  (On the remaining
inputs a second application strips a further suffix, as the counterexample
shows.) -/
theorem normalizeCountyKey_idem_off_suffix (s : String)
    (h : endsZup (normKeyL s.data) = false) :
    normalizeCountyKey (normalizeCountyKey (some s)) = normalizeCountyKey (some s) :=
  congrArg (fun l => some (String.mk l)) (normKeyL_idem s.data h)

theorem normalizeCountyKey_idem_witness :
    endsZup (normKeyL ("Istarska Zupanija").data) = false ∧
    normalizeCountyKey (normalizeCountyKey (some "Istarska Zupanija")) =
      normalizeCountyKey (some "Istarska Zupanija") :=
  ⟨by decide, normalizeCountyKey_idem_off_suffix "Istarska Zupanija" (by decide)⟩

/-- C4 counterexample: `normalizeCountyKey` does not strip diacritical
marks — two raw spellings of the same county differing only in the
diacritic on the first letter receive different keys. -/
theorem normalizeCountyKey_diacritics_counterexample :
    normalizeCountyKey (some "Šibensko-kninska") ≠
      normalizeCountyKey (some "Sibensko-kninska") := by
  decide

/-- C4 (amended): the normalizer canonicalizes case, BOM artifacts, hyphens
versus spaces, repeated whitespace and the trailing qualifier suffix, and
applies the static remap table — any two raw strings that agree after the
lowercase/BOM-strip/trim/hyphen/whitespace stage receive the identical key,
and representative suffix and remap variants of the same region agree — but
it does not strip diacritics: spellings differing only in a diacritic can
receive different keys. -/
theorem normalizeCountyKey_join_consistent :
    (∀ s t : String, preKey s.data = preKey t.data →
      normalizeCountyKey (some s) = normalizeCountyKey (some t)) ∧
    normalizeCountyKey (some "Istarska Zupanija") = normalizeCountyKey (some "istarska") ∧
    normalizeCountyKey (some "﻿Brodsko-Posavska") =
      normalizeCountyKey (some "brodsko  posavska") ∧
    normalizeCountyKey (some "VUKOVAR-SIRMIUM") =
      normalizeCountyKey (some "vukovarsko srijemska") ∧
    normalizeCountyKey (some "šibensko-kninska") ≠
      normalizeCountyKey (some "sibensko kninska") := by
  refine ⟨?_, by decide, by decide, by decide, by decide⟩
  intro s t h
  show some (String.mk (normKeyL s.data)) = some (String.mk (normKeyL t.data))
  simp only [normKeyL, h]

theorem normalizeCountyKey_join_witness :
    preKey ("ISTARSKA").data = preKey ("istarska").data ∧
    normalizeCountyKey (some "ISTARSKA") = normalizeCountyKey (some "istarska") :=
  ⟨by decide, normalizeCountyKey_join_consistent.1 "ISTARSKA" "istarska" (by decide)⟩
